import Mathlib

/-!
Verification of the conflict-resolution, succession and caching core of the
Gangland-Genesis simulation (TerritorySystem, ConspiracySystem, and the
time-windowed memoization pattern shared by ConspiracySystem and
UndergroundSystem).

Modelling conventions, stated once here:

* Entity ids are natural numbers.  Component stores are association lists
  from entity id to component record; `lookupA` is the `Component.get`
  operation of the source and returns `Option` (a missing component is the
  MissingComponent failure of the specification, section 4.1).
* `f32` fields are modelled as `Rat`; `ui8`/`ui16`/`ui32` fields as `Nat`.
  Bitfields are naturals read through `Nat.testBit`.
* The tick counter `world.time` is modelled as `Int`, because the source
  compares `cached.timestamp > this.world.time - 100` with JavaScript
  arithmetic, where `time - 100` may be negative.
* Component records carry exactly the fields that the modelled operations
  read or write; fields of the source components that none of the modelled
  operations touch (protection, income, enforcers, rivals of
  TerritoryControl; knownMembers, secretGoals, publicGoals, trustNetwork of
  ConspiracyState; supporters, rivals, powerBase of PowerStructure) are
  omitted from the records.
-/

namespace Gangland

/-- Association-list lookup: the first entry with the given key. -/
def lookupA {K V : Type} [DecidableEq K] (k : K) : List (K × V) → Option V
  | [] => none
  | (k2, v) :: rest => if k2 = k then some v else lookupA k rest

/-- Association-list membership test on keys. -/
def hasKeyA {K V : Type} [DecidableEq K] (k : K) (l : List (K × V)) : Bool :=
  (lookupA k l).isSome

/-- Map a function over the value stored at a key, leaving the list unchanged
when the key is absent.  This models an in-place mutation of a component
record obtained from a store; every reachable call in the modelled systems is
on a key produced by a component query, so the key is present. -/
def updateA {K V : Type} [DecidableEq K] (k : K) (f : V → V) : List (K × V) → List (K × V)
  | [] => []
  | (k2, v) :: rest => if k2 = k then (k2, f v) :: rest else (k2, v) :: updateA k f rest

/-- JavaScript `Map.set`: overwrite in place when the key is present
(preserving insertion order), append otherwise. -/
def setA {K V : Type} [DecidableEq K] (k : K) (v : V) : List (K × V) → List (K × V)
  | [] => [(k, v)]
  | (k2, v2) :: rest => if k2 = k then (k2, v) :: rest else (k2, v2) :: setA k v rest

/-- The fields of the `WarfareState` component read or written by the
territory system (src/systems/TerritorySystem.ts, lines 14-21). -/
structure WarfareState where
  activeConflicts : Nat
  warStrength : Rat
  allies : Nat
  casualties : Nat
  victories : Nat
  reputation : Rat
  deriving DecidableEq, Repr

/-- The fields of the `TerritoryControl` component read or written by the
modelled territory operations (src/systems/TerritorySystem.ts, lines 4-11).
The stability array has 16 entries, one per cell of the 4x4 grid. -/
structure TerritoryControl where
  territories : Nat
  stability : List Rat
  deriving DecidableEq, Repr

/-- A pending conflict as stored in `this.conflictCache`
(src/systems/TerritorySystem.ts, lines 105-109). -/
structure ConflictRec where
  territory : Nat
  startTime : Int
  lastUpdate : Int
  deriving DecidableEq, Repr

/-- The state touched by the territory system: the two component stores, the
pending-conflict map (keyed, as in the source, by the ordered pair
`(min gang1 gang2, max gang1 gang2)` that the string key encodes, in
insertion order), and the world tick counter. -/
structure TerrState where
  warfare : List (Nat × WarfareState)
  territory : List (Nat × TerritoryControl)
  conflictCache : List ((Nat × Nat) × ConflictRec)
  time : Int
  deriving DecidableEq, Repr

/-- Grid size: `TERRITORY_GRID = 16` (4x4) in the source. -/
def TERRITORY_GRID : Nat := 16

/-- Minimum strength gap for a decisive resolution: `MIN_STRENGTH = 0.3`. -/
def MIN_STRENGTH : Rat := 3 / 10

/-- Clear bit `i` of a `ui32` value: the JavaScript expression
`x & ~(1 << i)` on an unsigned 32-bit field. -/
def clearBit32 (x i : Nat) : Nat :=
  x &&& ((2 ^ 32 - 1) ^^^ 2 ^ i)

/-- The `registerConflict` method (src/systems/TerritorySystem.ts, lines
95-111).  The conflict key is the unordered pair alone; when the key is
already present the method returns without reading or writing anything.
Otherwise it sets the conflict flag bit on both parties and appends a fresh
record stamped with the current tick. -/
def registerConflict (s : TerrState) (gang1 gang2 territoryId : Nat) : TerrState :=
  let conflictKey := (min gang1 gang2, max gang1 gang2)
  if hasKeyA conflictKey s.conflictCache then s
  else
    { s with
      warfare :=
        updateA gang2 (fun w => { w with activeConflicts := w.activeConflicts ||| 2 ^ territoryId })
          (updateA gang1 (fun w => { w with activeConflicts := w.activeConflicts ||| 2 ^ territoryId })
            s.warfare),
      conflictCache :=
        s.conflictCache ++
          [(conflictKey, { territory := territoryId, startTime := s.time, lastUpdate := s.time })] }

/-- The territories bitfield of a gangster, as `TerritoryControl.get` reads it
inside `updateTerritories`; the gangsters iterated there come from the
component query, so the lookup succeeds in every reachable call. -/
def terrOf (s : TerrState) (g : Nat) : Nat :=
  ((lookupA g s.territory).map TerritoryControl.territories).getD 0

/-- The inner loop of `updateTerritories` (src/systems/TerritorySystem.ts,
lines 78-91) for one gangster: walk the listed grid cells; on each cell the
gangster claims, either record the gangster as occupant (cell free) or
register a conflict against the recorded occupant (cell taken).  The third
component of the accumulator is a ghost log of the `registerConflict` calls
made, `(caller, occupant, cell)`; it instruments the model and changes no
state. -/
def claimSlots (gangster terr : Nat) :
    List Nat → TerrState × (Nat → Option Nat) × List (Nat × Nat × Nat) →
    TerrState × (Nat → Option Nat) × List (Nat × Nat × Nat)
  | [], acc => acc
  | i :: rest, (s, grid, log) =>
    if terr.testBit i then
      match grid i with
      | some occupant =>
          claimSlots gangster terr rest
            (registerConflict s gangster occupant i, grid, log ++ [(gangster, occupant, i)])
      | none =>
          claimSlots gangster terr rest
            (s, fun j => if j = i then some gangster else grid j, log)
    else
      claimSlots gangster terr rest (s, grid, log)

/-- The outer loop of `updateTerritories`: process each queried gangster in
order, claiming all 16 grid cells. -/
def gangstersLoop :
    List Nat → TerrState × (Nat → Option Nat) × List (Nat × Nat × Nat) →
    TerrState × (Nat → Option Nat) × List (Nat × Nat × Nat)
  | [], acc => acc
  | g :: rest, acc =>
    gangstersLoop rest (claimSlots g (terrOf acc.1 g) (List.range TERRITORY_GRID) acc)

/-- The `updateTerritories` method (src/systems/TerritorySystem.ts, lines
68-93) with its ghost instrumentation: the spatial grid (a 16-cell array of
nulls in the source, modelled as a function that is `none` outside the cells
written) is cleared by `this.territoryGrid.fill(null)` and every queried
gangster maps its territories onto the grid, registering a conflict for each
already-occupied cell it claims.  Returns the final state, the final grid,
and the log of `registerConflict` calls. -/
def updateTerritoriesAux (s : TerrState) (gangsters : List Nat) :
    TerrState × (Nat → Option Nat) × List (Nat × Nat × Nat) :=
  gangstersLoop gangsters (s, fun _ => none, [])

/-- The state component of `updateTerritoriesAux`: the `updateTerritories`
method proper. -/
def updateTerritories (s : TerrState) (gangsters : List Nat) : TerrState :=
  (updateTerritoriesAux s gangsters).1

/-- The ally-strength accumulation loop of `calculateWarStrength`
(src/systems/TerritorySystem.ts, lines 148-156): scan the ally bitfield from
bit 0 upward, adding a contribution for every set bit.  The per-ally amount
comes from `getAllyContribution`, which is called but defined nowhere in the
repository, so it is the parameter `contrib` (already applied to the
gangster, leaving the bit index).  The source halves the mask with the
JavaScript signed shift `allyMask >>= 1`; for masks below `2 ^ 31` that shift
agrees with division by two, which is what the model uses (a mask with bit 31
set would make the source loop run forever, since `-1 >> 1 = -1`). -/
def allyLoopF (contrib : Nat → Rat) : Nat → Nat → Nat → Rat
  | 0, _, _ => 0
  | fuel + 1, allyMask, allyCount =>
    if allyMask = 0 then 0
    else
      (if allyMask % 2 = 1 then contrib allyCount else 0) +
        allyLoopF contrib fuel (allyMask / 2) (allyCount + 1)

/-- The ally loop on a `ui32` mask: 32 halvings always reach zero, so fuel 32
is exact on the whole `ui32` domain of the source. -/
def allyLoop (contrib : Nat → Rat) (allyMask allyCount : Nat) : Rat :=
  allyLoopF contrib 32 allyMask allyCount

/-- The `calculateWarStrength` method (src/systems/TerritorySystem.ts, lines
140-166): base strength plus the ally contributions, then multiplied by one
plus the control bonus (`territory.stability.reduce((sum, s) => sum + s, 0) /
16`, a sum over all 16 stability entries whether or not the cell is held),
then multiplied by one plus `reputation * 0.2`. -/
def calculateWarStrength (contrib : Nat → Rat) (warfare : WarfareState)
    (territory : TerritoryControl) : Rat :=
  let strength := warfare.warStrength + allyLoop contrib warfare.allies 0
  let controlBonus := territory.stability.sum / 16
  strength * (1 + controlBonus) * (1 + warfare.reputation * (1 / 5))

/-- The `updateWarReputation` method (src/systems/TerritorySystem.ts, lines
196-205); the `gangster` parameter of the source is never read and is
dropped. -/
def updateWarReputation (warfare : WarfareState) (victory : Bool) : WarfareState :=
  if victory then { warfare with reputation := min 1 (warfare.reputation + 1 / 10) }
  else { warfare with reputation := warfare.reputation * (4 / 5) }

/-- The method the source defines as `resolveTerrritorialDispute` — spelled
with a triple r — at src/systems/TerritorySystem.ts, lines 168-194: transfer
the contested cell from loser to winner, count a victory and a casualty,
update both reputations, and clear the conflict flag bit on both parties. -/
def resolveTerrritorialDispute (s : TerrState) (gang1 gang2 territoryId winner : Nat) :
    TerrState :=
  let w1 :=
    if winner = gang1 then
      updateA gang2 (fun w => { w with casualties := w.casualties + 1 })
        (updateA gang1 (fun w => { w with victories := w.victories + 1 }) s.warfare)
    else
      updateA gang1 (fun w => { w with casualties := w.casualties + 1 })
        (updateA gang2 (fun w => { w with victories := w.victories + 1 }) s.warfare)
  let t1 :=
    if winner = gang1 then
      updateA gang1 (fun t => { t with territories := t.territories ||| 2 ^ territoryId })
        (updateA gang2 (fun t => { t with territories := clearBit32 t.territories territoryId })
          s.territory)
    else
      updateA gang2 (fun t => { t with territories := t.territories ||| 2 ^ territoryId })
        (updateA gang1 (fun t => { t with territories := clearBit32 t.territories territoryId })
          s.territory)
  let w2 :=
    updateA gang2 (fun w => updateWarReputation w (winner = gang2))
      (updateA gang1 (fun w => updateWarReputation w (winner = gang1)) w1)
  let w3 :=
    updateA gang2 (fun w => { w with activeConflicts := clearBit32 w.activeConflicts territoryId })
      (updateA gang1 (fun w => { w with activeConflicts := clearBit32 w.activeConflicts territoryId })
        w2)
  { s with warfare := w3, territory := t1 }

/-- Modelled from the spec: `handleStalemate` is invoked by
`resolveConflicts` (src/systems/TerritorySystem.ts, line 133) but is defined
nowhere in the repository sources.  Section 4.4 of the specification says a
stalemate makes both parties absorb a casualty-equivalent cost, so the model
increments both casualty counters and changes nothing else; the
`lastUpdateTick` refresh happens at the call site, as in the source. -/
def handleStalemate (s : TerrState) (gang1 gang2 : Nat) : TerrState :=
  { s with
    warfare :=
      updateA gang2 (fun w => { w with casualties := w.casualties + 1 })
        (updateA gang1 (fun w => { w with casualties := w.casualties + 1 }) s.warfare) }

/-- One iteration of the `resolveConflicts` loop (src/systems/TerritorySystem.ts,
lines 113-138) on a single pending-conflict entry, with the decisive branch
bound to the method the class actually defines, `resolveTerrritorialDispute`
(the call site spells the name `resolveTerritorialDispute`; see
`processConflictAsWritten` for the behaviour of that spelling).  Returns
`none` when a component lookup on a party fails (MissingComponent), otherwise
the updated state together with the entry to keep in the map (`none` when the
conflict is resolved and deleted, the refreshed entry on a stalemate, the
untouched entry when immature). -/
def processConflict (contrib : Nat → Nat → Rat) (s : TerrState)
    (entry : (Nat × Nat) × ConflictRec) :
    Option (TerrState × Option ((Nat × Nat) × ConflictRec)) :=
  let gang1 := entry.1.1
  let gang2 := entry.1.2
  let conflict := entry.2
  if s.time - conflict.lastUpdate > 100 then
    match lookupA gang1 s.warfare, lookupA gang1 s.territory,
        lookupA gang2 s.warfare, lookupA gang2 s.territory with
    | some w1, some t1, some w2, some t2 =>
      let strength1 := calculateWarStrength (contrib gang1) w1 t1
      let strength2 := calculateWarStrength (contrib gang2) w2 t2
      if |strength1 - strength2| > MIN_STRENGTH then
        some
          (resolveTerrritorialDispute s gang1 gang2 conflict.territory
            (if strength1 > strength2 then gang1 else gang2),
            none)
      else
        some
          (handleStalemate s gang1 gang2,
            some ((gang1, gang2), { conflict with lastUpdate := s.time }))
    | _, _, _, _ => none
  else some (s, some entry)

/-- One iteration of the `resolveConflicts` loop exactly as the source is
written: on the decisive branch the call site invokes
`this.resolveTerritorialDispute(...)` (double r), a method the class does not
define — the defined method is spelled `resolveTerrritorialDispute` — so the
dynamic lookup yields undefined and the call raises a TypeError; on the
stalemate branch the call site invokes `this.handleStalemate(...)`, which is
likewise defined nowhere in the repository.  A mature conflict with both
parties present therefore always aborts the update, modelled as `none`. -/
def processConflictAsWritten (contrib : Nat → Nat → Rat) (s : TerrState)
    (entry : (Nat × Nat) × ConflictRec) :
    Option (TerrState × Option ((Nat × Nat) × ConflictRec)) :=
  let gang1 := entry.1.1
  let gang2 := entry.1.2
  let conflict := entry.2
  if s.time - conflict.lastUpdate > 100 then
    match lookupA gang1 s.warfare, lookupA gang1 s.territory,
        lookupA gang2 s.warfare, lookupA gang2 s.territory with
    | some w1, some t1, some w2, some t2 =>
      let strength1 := calculateWarStrength (contrib gang1) w1 t1
      let strength2 := calculateWarStrength (contrib gang2) w2 t2
      if |strength1 - strength2| > MIN_STRENGTH then none
      else none
    | _, _, _, _ => none
  else some (s, some entry)

/-- Fold of `processConflict` over the snapshot of the pending-conflict map
that the `for (const [key, conflict] of this.conflictCache)` loop iterates;
kept entries are collected in order. -/
def conflictFold (contrib : Nat → Nat → Rat) (s : TerrState)
    (kept : List ((Nat × Nat) × ConflictRec)) :
    List ((Nat × Nat) × ConflictRec) →
    Option (TerrState × List ((Nat × Nat) × ConflictRec))
  | [] => some (s, kept)
  | e :: rest =>
    match processConflict contrib s e with
    | none => none
    | some (s2, keep) => conflictFold contrib s2 (kept ++ keep.toList) rest

/-- The `resolveConflicts` method (src/systems/TerritorySystem.ts, lines
113-138) with the decisive branch bound to the defined
`resolveTerrritorialDispute`. -/
def resolveConflicts (contrib : Nat → Nat → Rat) (s : TerrState) : Option TerrState :=
  match conflictFold contrib s [] s.conflictCache with
  | none => none
  | some (s2, kept) => some { s2 with conflictCache := kept }

/-- Fold of `processConflictAsWritten`, mirroring `conflictFold`. -/
def conflictFoldAsWritten (contrib : Nat → Nat → Rat) (s : TerrState)
    (kept : List ((Nat × Nat) × ConflictRec)) :
    List ((Nat × Nat) × ConflictRec) →
    Option (TerrState × List ((Nat × Nat) × ConflictRec))
  | [] => some (s, kept)
  | e :: rest =>
    match processConflictAsWritten contrib s e with
    | none => none
    | some (s2, keep) => conflictFoldAsWritten contrib s2 (kept ++ keep.toList) rest

/-- The `resolveConflicts` method exactly as written, with the undefined
method names of the source left unresolved (see
`processConflictAsWritten`). -/
def resolveConflictsAsWritten (contrib : Nat → Nat → Rat) (s : TerrState) :
    Option TerrState :=
  match conflictFoldAsWritten contrib s [] s.conflictCache with
  | none => none
  | some (s2, kept) => some { s2 with conflictCache := kept }

/-- The fields of the `PowerStructure` component read or written by the
modelled conspiracy operations (src/unnamed/part_003, lines 14-21).
`leaderPosition` is a `ui8` in the source, holding small naturals; it is
modelled as `Int` so that the demotion arithmetic of the succession claims
can be stated directly.  `succession` is the 4-entry designated-successor
array, entry 0 meaning no successor. -/
structure PowerStructure where
  leaderPosition : Int
  succession : List Nat
  stabilityFactor : Rat
  deriving DecidableEq, Repr

/-- A power vacuum as built by `detectPowerVacuums` (src/unnamed/part_003,
lines 111-117). -/
structure Vacuum where
  position : Int
  agent : Nat
  severity : Rat
  deriving DecidableEq, Repr

/-- A succession candidate as pushed by `findViableSuccessors`
(src/unnamed/part_003, lines 153-157 and 167-171). -/
structure Candidate where
  agent : Nat
  power : PowerStructure
  support : Rat
  deriving DecidableEq, Repr

/-- The `detectPowerVacuums` method (src/unnamed/part_003, lines 105-122):
an agent with a ranked position (`leaderPosition > 0`) whose stability fell
below 0.2 yields a vacuum of severity `1 - stabilityFactor`. -/
def detectPowerVacuums (store : List (Nat × PowerStructure)) (agents : List Nat) :
    List Vacuum :=
  agents.filterMap fun a =>
    match lookupA a store with
    | some p =>
      if p.leaderPosition > 0 ∧ p.stabilityFactor < 1 / 5 then
        some { position := p.leaderPosition, agent := a, severity := 1 - p.stabilityFactor }
      else none
    | none => none

/-- Stable insertion step for the candidate sort: a candidate is placed
before the first element whose support does not exceed it.  Because the sort
below inserts elements from the right of the list, an element is always
inserted into candidates that originally came after it, so the `≥` test
keeps ties in their original relative order. -/
def insertBySupport (x : Candidate) : List Candidate → List Candidate
  | [] => [x]
  | y :: ys => if x.support ≥ y.support then x :: y :: ys else y :: insertBySupport x ys

/-- The candidate sort `candidates.sort((a, b) => b.support - a.support)` of
`findViableSuccessors`.  JavaScript `Array.prototype.sort` is stable, and a
stable descending permutation is unique, so this stable insertion sort is
the exact semantics of the source call. -/
def sortBySupport : List Candidate → List Candidate
  | [] => []
  | x :: xs => insertBySupport x (sortBySupport xs)

/-- The candidate enumeration of `findViableSuccessors`
(src/unnamed/part_003, lines 143-173), before the final sort: designated
successors first (in the order of the `succession` array, zero entries
skipped), then every other queried agent not listed in `succession`, each
filtered by a viability test and paired with its computed support.  The
viability tests
`isViableSuccessor` and `isViableClaimant` and the scoring function
`calculateSupport` are called but defined nowhere in the repository, so they
are the parameters `isV`, `isC` and `support` (the latter is the missing
`calculateSupport` applied to the agent list of this call).  The source
fetches each candidate record with `PowerStructure.get`; candidates come
from the component query, so the lookups succeed in every reachable call and
a missing record is modelled as a skip. -/
def enumerateCandidates (isV : Nat → PowerStructure → Vacuum → Bool)
    (isC : Nat → PowerStructure → Vacuum → Bool) (support : Nat → Rat)
    (store : List (Nat × PowerStructure)) (vacuum : Vacuum) (agents : List Nat) :
    List Candidate :=
  let power := (lookupA vacuum.agent store).getD
    { leaderPosition := 0, succession := [], stabilityFactor := 0 }
  let fromSuccession := power.succession.filterMap fun successor =>
    if successor = 0 then none
    else
      match lookupA successor store with
      | some sp =>
        if isV successor sp vacuum then
          some { agent := successor, power := sp, support := support successor }
        else none
      | none => none
  let fromClaimants := agents.filterMap fun agent =>
    if agent ∈ power.succession then none
    else
      match lookupA agent store with
      | some ap =>
        if isC agent ap vacuum then
          some { agent := agent, power := ap, support := support agent }
        else none
      | none => none
  fromSuccession ++ fromClaimants

/-- The sort call of `findViableSuccessors` applied to the enumeration
above: `return candidates.sort((a, b) => b.support - a.support)`. -/
def findViableSuccessors (isV : Nat → PowerStructure → Vacuum → Bool)
    (isC : Nat → PowerStructure → Vacuum → Bool) (support : Nat → Rat)
    (store : List (Nat × PowerStructure)) (vacuum : Vacuum) (agents : List Nat) :
    List Candidate :=
  sortBySupport (enumerateCandidates isV isC support store vacuum agents)

/-- Modelled from the spec: `findAffectedAgents` is called by
`handlePowerCollapse` (src/unnamed/part_003, line 202) but is defined
nowhere in the repository sources.  Section 4.5 of the specification says a
power collapse demotes every stakeholder of the hierarchy, so every queried
agent is affected. -/
def findAffectedAgents (_vacuum : Vacuum) (agents : List Nat) : List Nat :=
  agents

/-- The `handlePowerCollapse` method (src/unnamed/part_003, lines 201-216):
for every affected agent, `leaderPosition` becomes
`Math.max(0, leaderPosition - 1)` and `stabilityFactor` is halved.  The
per-agent call to `forceConspiracyRealignment` is defined nowhere in the
repository; per its arguments it rewrites the ConspiracyState component,
which is not part of this store, so it has no effect here. -/
def handlePowerCollapse (vacuum : Vacuum) (agents : List Nat)
    (store : List (Nat × PowerStructure)) : List (Nat × PowerStructure) :=
  (findAffectedAgents vacuum agents).foldl
    (fun st a =>
      updateA a
        (fun p =>
          { p with
            leaderPosition := max 0 (p.leaderPosition - 1),
            stabilityFactor := p.stabilityFactor * (1 / 2) })
        st)
    store

/-- Stable insertion step for the vacuum sort
`vacuums.sort((a, b) => b.severity - a.severity || b.position - a.position)`:
descending severity, then descending position, full ties keeping original
order (the sort below inserts from the right, so `≥` on the final key keeps
ties stable). -/
def insertVacuum (x : Vacuum) : List Vacuum → List Vacuum
  | [] => [x]
  | y :: ys =>
    if x.severity > y.severity ∨ (x.severity = y.severity ∧ x.position ≥ y.position) then
      x :: y :: ys
    else y :: insertVacuum x ys

/-- The vacuum sort of `handlePowerVacuums` (src/unnamed/part_003, lines
126-128), as a stable insertion sort. -/
def sortVacuums : List Vacuum → List Vacuum
  | [] => []
  | x :: xs => insertVacuum x (sortVacuums xs)

/-- The `handlePowerVacuums` method (src/unnamed/part_003, lines 124-141):
sort the vacuums by severity then position, and for each one either start a
succession crisis (some viable successor exists) or collapse the position.
`initiateSuccessionCrisis` depends on `divideSupporters`,
`allocateConspiracyBit` and `this.GOALS`, none of which the repository
defines, so the crisis branch is the parameter `crisis`; the collapse branch
is the fully modelled `handlePowerCollapse`. -/
def handlePowerVacuums
    (crisis : Vacuum → List Candidate → List (Nat × PowerStructure) → List (Nat × PowerStructure))
    (isV : Nat → PowerStructure → Vacuum → Bool)
    (isC : Nat → PowerStructure → Vacuum → Bool) (support : Nat → Rat)
    (vacuums : List Vacuum) (agents : List Nat)
    (store : List (Nat × PowerStructure)) : List (Nat × PowerStructure) :=
  (sortVacuums vacuums).foldl
    (fun st vacuum =>
      let successors := findViableSuccessors isV isC support st vacuum agents
      if successors.length > 0 then crisis vacuum successors st
      else handlePowerCollapse vacuum agents st)
    store

/-- An entry of the conspiracy-status cache (src/unnamed/part_003, lines
233-236): the cached status and the tick at which it was stored. -/
structure CacheEntry (V : Type) where
  status : V
  timestamp : Int
  deriving DecidableEq, Repr

/-- The `updateConspiracyStatus` method (src/unnamed/part_003, lines
218-239).  The cache key is the pair `(agent, membershipFlags)` that the
string key of the source encodes.  On a hit fresher than 100 ticks the
cached status is returned; otherwise `calculateConspiracyStatus` — which is
called but defined nowhere in the repository — produces a new status, here
the parameter `calcStatus` (the value that call would produce), and the
entry is overwritten with the current tick.  The boolean of the result is
ghost instrumentation recording whether the compute call was made; the
source returns only the status and mutates the cache in place. -/
def updateConspiracyStatus {V : Type} (calcStatus : V)
    (cache : List ((Nat × Nat) × CacheEntry V)) (time : Int)
    (agent membershipFlags : Nat) :
    V × List ((Nat × Nat) × CacheEntry V) × Bool :=
  let cacheKey := (agent, membershipFlags)
  match lookupA cacheKey cache with
  | some cached =>
    if cached.timestamp > time - 100 then (cached.status, cache, false)
    else (calcStatus, setA cacheKey { status := calcStatus, timestamp := time } cache, true)
  | none => (calcStatus, setA cacheKey { status := calcStatus, timestamp := time } cache, true)

/-- The war-strength formula as the specification words it (section 4.4):
base capability times (1 + one-hop ally-contribution sum) times (1 + average
control-stability across the cells the party holds) times (1 + reputation
times k), with k = 0.2 as in the source.  Stated for comparison with
`calculateWarStrength`, which is the formula of the source. -/
def specWarStrength (contrib : Nat → Rat) (warfare : WarfareState)
    (territory : TerritoryControl) : Rat :=
  let allySum := ∑ i in Finset.range 32, if warfare.allies.testBit i then contrib i else 0
  let held := (Finset.range 16).filter fun i => territory.territories.testBit i
  let heldAvg := (∑ i in held, territory.stability.getD i 0) / (held.card : Rat)
  warfare.warStrength * (1 + allySum) * (1 + heldAvg) * (1 + warfare.reputation * (1 / 5))

/-- Insertion step for the candidate ordering as the claim words it:
descending support, ties broken by the lowest entity id. -/
def insertSpecOrder (x : Candidate) : List Candidate → List Candidate
  | [] => [x]
  | y :: ys =>
    if x.support > y.support ∨ (x.support = y.support ∧ x.agent < y.agent) then
      x :: y :: ys
    else y :: insertSpecOrder x ys

/-- The candidate ordering as the claim words it (descending support, ties
by lowest entity id), for comparison with the stable sort of the source. -/
def specCandidateOrder : List Candidate → List Candidate
  | [] => []
  | x :: xs => insertSpecOrder x (specCandidateOrder xs)

/-- The first gangster of the queried list that claims cell `i`: the
occupant that `updateTerritories` records for that cell. -/
def firstClaimant (s : TerrState) (gangsters : List Nat) (i : Nat) : Option Nat :=
  gangsters.find? fun g => (terrOf s g).testBit i

/-! Concrete fixtures used by the closed theorems below. -/

/-- A gangster at war over cell 3 with base strength 10 and no allies. -/
def warfareA : WarfareState :=
  { activeConflicts := 2 ^ 3, warStrength := 10, allies := 0, casualties := 0,
    victories := 0, reputation := 0 }

/-- A gangster at war over cell 3 with base strength 7 and no allies. -/
def warfareB : WarfareState :=
  { activeConflicts := 2 ^ 3, warStrength := 7, allies := 0, casualties := 0,
    victories := 0, reputation := 0 }

/-- A holding of cell 3 only, with all stability entries zero. -/
def terrA : TerritoryControl :=
  { territories := 2 ^ 3, stability := List.replicate 16 0 }

/-- A pending conflict over cell 3, registered at tick 0. -/
def conflictAB : ConflictRec :=
  { territory := 3, startTime := 0, lastUpdate := 0 }

/-- A mature decisive conflict: gangs 1 and 2 contest cell 3 at tick 101
with strengths 10 and 7. -/
def stateC1 : TerrState :=
  { warfare := [(1, warfareA), (2, warfareB)],
    territory := [(1, terrA), (2, terrA)],
    conflictCache := [((1, 2), conflictAB)],
    time := 101 }

/-- The state the intended resolution of `stateC1` produces: cell 3 moved to
gang 1, a victory and a casualty counted, reputations updated, conflict
flags cleared, pending map emptied. -/
def stateC1After : TerrState :=
  { warfare :=
      [(1, { activeConflicts := 0, warStrength := 10, allies := 0, casualties := 0,
             victories := 1, reputation := 1 / 10 }),
        (2, { activeConflicts := 0, warStrength := 7, allies := 0, casualties := 1,
              victories := 0, reputation := 0 })],
    territory :=
      [(1, { territories := 2 ^ 3, stability := List.replicate 16 0 }),
        (2, { territories := 0, stability := List.replicate 16 0 })],
    conflictCache := [],
    time := 101 }

/-- A mature conflict whose second party has no components: gang 2 is absent
from every store. -/
def stateC9 : TerrState :=
  { warfare := [(1, warfareA)],
    territory := [(1, terrA)],
    conflictCache := [((1, 2), conflictAB)],
    time := 101 }

/-- A holding of cells 3 and 5, with all stability entries zero. -/
def terrBoth : TerritoryControl :=
  { territories := 2 ^ 3 ||| 2 ^ 5, stability := List.replicate 16 0 }

/-- A gangster with no active conflicts. -/
def warfare0 : WarfareState :=
  { activeConflicts := 0, warStrength := 10, allies := 0, casualties := 0,
    victories := 0, reputation := 0 }

/-- Two gangsters both claiming cells 3 and 5 in the same tick, no pending
conflicts yet. -/
def stateC4 : TerrState :=
  { warfare := [(1, warfare0), (2, warfare0)],
    territory := [(1, terrBoth), (2, terrBoth)],
    conflictCache := [],
    time := 0 }

/-- A mature balanced conflict: gangs 1 and 2 both have strength 10 at tick
101, a gap of 0 within the 0.3 threshold. -/
def stateC3 : TerrState :=
  { warfare := [(1, warfareA), (2, warfareA)],
    territory := [(1, terrA), (2, terrA)],
    conflictCache := [((1, 2), conflictAB)],
    time := 101 }

/-- Base strength 1, no allies, no reputation. -/
def warfareS : WarfareState :=
  { activeConflicts := 0, warStrength := 1, allies := 0, casualties := 0,
    victories := 0, reputation := 0 }

/-- Holds cell 0 only, but carries stability 4/5 on the unheld cell 1: the
source averages stability over all 16 cells, the specification only over the
held ones, and this record separates the two. -/
def terrS : TerritoryControl :=
  { territories := 1, stability := 0 :: (4 / 5 : Rat) :: List.replicate 14 0 }

/-- Base strength 2, allies on bits 0 and 2 (mask 5), reputation 1. -/
def warfareW : WarfareState :=
  { activeConflicts := 0, warStrength := 2, allies := 5, casualties := 0,
    victories := 0, reputation := 1 }

/-- Three gangsters all claiming cell 3 in the same tick. -/
def stateC10 : TerrState :=
  { warfare := [(1, warfare0), (2, warfare0), (3, warfare0)],
    territory := [(1, terrA), (2, terrA), (3, terrA)],
    conflictCache := [],
    time := 0 }

/-- A destabilized leader at rank 3 with no designated successors. -/
def pc1 : PowerStructure :=
  { leaderPosition := 3, succession := [0, 0, 0, 0], stabilityFactor := 1 / 10 }

/-- A rank-0 stakeholder of the same hierarchy. -/
def pc2 : PowerStructure :=
  { leaderPosition := 0, succession := [0, 0, 0, 0], stabilityFactor := 2 / 5 }

/-- The store for the collapse scenario: agent 1 destabilized at rank 3,
agent 2 at rank 0. -/
def storeC6 : List (Nat × PowerStructure) :=
  [(1, pc1), (2, pc2)]

/-- The vacuum `detectPowerVacuums` produces for agent 1 of `storeC6`. -/
def vacC6 : Vacuum :=
  { position := 3, agent := 1, severity := 9 / 10 }

/-- A destabilized leader whose designated successors are 7 then 3. -/
def pVac : PowerStructure :=
  { leaderPosition := 2, succession := [7, 3, 0, 0], stabilityFactor := 1 / 10 }

/-- A stable rank-1 agent. -/
def pSucc : PowerStructure :=
  { leaderPosition := 1, succession := [0, 0, 0, 0], stabilityFactor := 1 }

/-- The store for the tie-break scenario: vacuum holder 1, designated
successors 7 and 3 (in that list order). -/
def storeC7 : List (Nat × PowerStructure) :=
  [(1, pVac), (7, pSucc), (3, pSucc)]

/-- The vacuum over agent 1 of `storeC7`. -/
def vacC7 : Vacuum :=
  { position := 2, agent := 1, severity := 9 / 10 }

/-- The candidate list the source produces for `storeC7` when both
designated successors are viable with equal support 1 and nobody else is
viable. -/
def candC7 : List Candidate :=
  findViableSuccessors (fun _ _ _ => true) (fun _ _ _ => false) (fun _ => 1)
    storeC7 vacC7 [1, 7, 3]

/-! Association-list lemmas shared by the claim proofs. -/

theorem lookupA_setA_self {K V : Type} [DecidableEq K] (k : K) (v : V) (l : List (K × V)) :
    lookupA k (setA k v l) = some v := by
  induction l with
  | nil => simp [setA, lookupA]
  | cons hd tl ih =>
    obtain ⟨k2, v2⟩ := hd
    by_cases h : k2 = k
    · simp [setA, lookupA, h]
    · simp [setA, lookupA, h, ih]

theorem setA_setA {K V : Type} [DecidableEq K] (k : K) (v1 v2 : V) (l : List (K × V)) :
    setA k v2 (setA k v1 l) = setA k v2 l := by
  induction l with
  | nil => simp [setA]
  | cons hd tl ih =>
    obtain ⟨k2, w⟩ := hd
    by_cases h : k2 = k
    · simp [setA, h]
    · simp [setA, h, ih]

theorem lookupA_append {K V : Type} [DecidableEq K] (k : K) (l m : List (K × V)) :
    lookupA k (l ++ m) = ((lookupA k l).or (lookupA k m)) := by
  induction l with
  | nil => simp [lookupA]
  | cons hd tl ih =>
    obtain ⟨k2, v⟩ := hd
    by_cases h : k2 = k
    · simp [lookupA, h]
    · simp [lookupA, h, ih]

theorem hasKeyA_append_self {K V : Type} [DecidableEq K] (k : K) (v : V) (l : List (K × V)) :
    hasKeyA k (l ++ [(k, v)]) = true := by
  rw [hasKeyA, lookupA_append]
  cases h : lookupA k l <;> simp [h, lookupA]

theorem lookupA_updateA_self {K V : Type} [DecidableEq K] (k : K) (f : V → V) (l : List (K × V)) :
    lookupA k (updateA k f l) = (lookupA k l).map f := by
  induction l with
  | nil => simp [updateA, lookupA]
  | cons hd tl ih =>
    obtain ⟨k2, v⟩ := hd
    by_cases h : k2 = k
    · simp [updateA, lookupA, h]
    · simp [updateA, lookupA, h, ih]

theorem lookupA_updateA_ne {K V : Type} [DecidableEq K] (k k2 : K) (f : V → V)
    (l : List (K × V)) (h : k2 ≠ k) :
    lookupA k (updateA k2 f l) = lookupA k l := by
  induction l with
  | nil => rfl
  | cons hd tl ih =>
    obtain ⟨k3, v⟩ := hd
    by_cases h3 : k3 = k2
    · have hstep : updateA k2 f ((k3, v) :: tl) = (k3, f v) :: tl := by
        simp [updateA, h3]
      have hk : k3 ≠ k := by
        rw [h3]
        exact h
      rw [hstep]
      simp [lookupA, hk]
    · have hstep : updateA k2 f ((k3, v) :: tl) = (k3, v) :: updateA k2 f tl := by
        simp [updateA, h3]
      rw [hstep]
      simp [lookupA, ih]

theorem registerConflict_of_hasKey (s : TerrState) (gang1 gang2 territoryId : Nat)
    (h : hasKeyA (min gang1 gang2, max gang1 gang2) s.conflictCache = true) :
    registerConflict s gang1 gang2 territoryId = s := by
  unfold registerConflict
  simp [h]

/-- C5: conflict registration is idempotent.  When the unordered pair is
already registered, `registerConflict` returns the state untouched: the
pending-conflict map keeps its size and the existing record — its
`startTime` and `lastUpdate` included — is unchanged, whatever the newly
contested cell is. -/
theorem C5_registration_idempotent (s : TerrState) (gang1 gang2 territoryId : Nat)
    (h : hasKeyA (min gang1 gang2, max gang1 gang2) s.conflictCache = true) :
    registerConflict s gang1 gang2 territoryId = s ∧
    (registerConflict s gang1 gang2 territoryId).conflictCache.length =
      s.conflictCache.length ∧
    lookupA (min gang1 gang2, max gang1 gang2)
        (registerConflict s gang1 gang2 territoryId).conflictCache =
      lookupA (min gang1 gang2, max gang1 gang2) s.conflictCache := by
  have he : registerConflict s gang1 gang2 territoryId = s := by
    unfold registerConflict
    simp [h]
  exact ⟨he, by rw [he], by rw [he]⟩

/-- C5 witness: a pair already pending on cell 3 re-claims cell 3; the map
stays at size 1 with the record of tick 0 intact. -/
theorem C5_registration_idempotent_witness :
    hasKeyA ((min 1 2 : Nat), (max 1 2 : Nat)) stateC1.conflictCache = true ∧
    (registerConflict stateC1 1 2 3 = stateC1 ∧
      (registerConflict stateC1 1 2 3).conflictCache.length =
        stateC1.conflictCache.length ∧
      lookupA ((min 1 2 : Nat), (max 1 2 : Nat))
          (registerConflict stateC1 1 2 3).conflictCache =
        lookupA ((min 1 2 : Nat), (max 1 2 : Nat)) stateC1.conflictCache) :=
  ⟨by decide, C5_registration_idempotent stateC1 1 2 3 (by decide)⟩

/-- C4 counterexample: gangs 1 and 2 both claim cells 3 and 5 in the same
tick (`stateC4`).  The claim requires a separate PendingConflict for each of
the two cells; detection instead leaves exactly one entry, keyed by the pair
alone and recording only cell 3, so no entry for cell 5 exists. -/
theorem C4_counterexample :
    (updateTerritories stateC4 [1, 2]).conflictCache =
      [((1, 2), { territory := 3, startTime := 0, lastUpdate := 0 })] ∧
    (updateTerritories stateC4 [1, 2]).conflictCache.length ≠ 2 := by
  refine ⟨by decide, ?_⟩
  decide

/-- C4 amended: registration is keyed by the colliding pair alone, so after
a pair is registered for one cell, registering the same pair for any second
cell — the second colliding slot of the same tick in particular — adds
nothing: no new map entry, no flag or record change. -/
theorem C4_pair_keyed_registration (s : TerrState) (gang1 gang2 i j : Nat) :
    registerConflict (registerConflict s gang1 gang2 i) gang1 gang2 j =
      registerConflict s gang1 gang2 i := by
  by_cases h : hasKeyA (min gang1 gang2, max gang1 gang2) s.conflictCache = true
  · have he : registerConflict s gang1 gang2 i = s :=
      registerConflict_of_hasKey s gang1 gang2 i h
    rw [he]
    exact registerConflict_of_hasKey s gang1 gang2 j h
  · have he : (registerConflict s gang1 gang2 i).conflictCache =
        s.conflictCache ++
          [((min gang1 gang2, max gang1 gang2),
            { territory := i, startTime := s.time, lastUpdate := s.time })] := by
      unfold registerConflict
      simp [h]
    have h2 : hasKeyA (min gang1 gang2, max gang1 gang2)
        (registerConflict s gang1 gang2 i).conflictCache = true := by
      rw [he]
      exact hasKeyA_append_self _ _ _
    exact registerConflict_of_hasKey _ gang1 gang2 j h2

/-- C9 counterexample: `stateC9` holds a mature conflict whose party 2 has
no components.  The claim requires the resolver to discard the conflict with
no side effects — result `some (stateC9, none)` — but the source performs no
existence check: the component lookup fails (MissingComponent) and the
update aborts. -/
theorem C9_counterexample :
    processConflict (fun _ _ => 0) stateC9 ((1, 2), conflictAB) = none ∧
    processConflict (fun _ _ => 0) stateC9 ((1, 2), conflictAB) ≠
      some (stateC9, none) := by
  refine ⟨by decide, ?_⟩
  decide

/-- C9 amended: on a mature conflict the resolver reads both parties through
the component store unconditionally; if either party has no `WarfareState`,
resolution fails with a missing-component error instead of discarding the
conflict, so nothing is removed and no stalemate or winner is declared. -/
theorem C9_no_existence_check (contrib : Nat → Nat → Rat) (s : TerrState)
    (gang1 gang2 : Nat) (c : ConflictRec)
    (hm : s.time - c.lastUpdate > 100)
    (hmiss : lookupA gang1 s.warfare = none ∨ lookupA gang2 s.warfare = none) :
    processConflict contrib s ((gang1, gang2), c) = none := by
  unfold processConflict
  simp only [hm, if_true, gt_iff_lt]
  split
  · rcases hmiss with h | h <;> simp_all
  · rfl

/-- C9 witness: the amended statement applied to `stateC9`, whose party 2
has no warfare component. -/
theorem C9_no_existence_check_witness :
    (stateC9.time - conflictAB.lastUpdate > 100) ∧
    processConflict (fun _ _ => 0) stateC9 ((1, 2), conflictAB) = none :=
  ⟨by decide,
    C9_no_existence_check (fun _ _ => 0) stateC9 1 2 conflictAB (by decide)
      (Or.inr (by decide))⟩

/-- C8: the memoization of `updateConspiracyStatus` behaves as a TTL cache
with window 100.  Starting from a key not in the cache, the first lookup at
tick `t1` computes (ghost flag `true`) and stores the stamped value; a
second lookup at tick `t2` with `t2 - t1 < 100` returns the stored value
without computing (flag `false`, cache untouched, and the value returned is
the first one even though the second call would compute `v2`); once
`100 ≤ t2 - t1` the second lookup computes again and overwrites the entry
with a fresh stamp — overwriting in place, as the final conjunct shows. -/
theorem C8_ttl_cache (V : Type) (cache : List ((Nat × Nat) × CacheEntry V))
    (t1 t2 : Int) (agent flags : Nat) (v1 v2 : V)
    (hmiss : lookupA (agent, flags) cache = none) :
    updateConspiracyStatus v1 cache t1 agent flags =
      (v1, setA (agent, flags) { status := v1, timestamp := t1 } cache, true) ∧
    (t2 - t1 < 100 →
      updateConspiracyStatus v2
          (setA (agent, flags) { status := v1, timestamp := t1 } cache) t2 agent flags =
        (v1, setA (agent, flags) { status := v1, timestamp := t1 } cache, false)) ∧
    (100 ≤ t2 - t1 →
      updateConspiracyStatus v2
          (setA (agent, flags) { status := v1, timestamp := t1 } cache) t2 agent flags =
        (v2, setA (agent, flags) { status := v2, timestamp := t2 } cache, true)) := by
  have hhit : lookupA (agent, flags)
      (setA (agent, flags) { status := v1, timestamp := t1 } cache) =
      some { status := v1, timestamp := t1 } := lookupA_setA_self _ _ _
  refine ⟨?_, ?_, ?_⟩
  · simp only [updateConspiracyStatus]
    rw [hmiss]
  · intro hfresh
    simp only [updateConspiracyStatus]
    rw [hhit]
    have ht : (t1 : Int) > t2 - 100 := by omega
    simp [ht]
  · intro hstale
    simp only [updateConspiracyStatus]
    rw [hhit]
    have ht : ¬ ((t1 : Int) > t2 - 100) := by omega
    simp only [ht, if_false]
    rw [setA_setA]

/-- C8 witness: key (5, 9) computed at tick 0, re-read at tick 50 without
recomputation. -/
theorem C8_ttl_cache_witness :
    lookupA ((5 : Nat), (9 : Nat)) ([] : List ((Nat × Nat) × CacheEntry Nat)) = none ∧
    updateConspiracyStatus (37 : Nat) [] 0 5 9 =
      (37, setA (5, 9) { status := 37, timestamp := 0 } [], true) ∧
    updateConspiracyStatus (42 : Nat)
        (setA (5, 9) { status := (37 : Nat), timestamp := 0 } []) 50 5 9 =
      (37, setA (5, 9) { status := 37, timestamp := 0 } [], false) := by
  have h := C8_ttl_cache Nat [] 0 50 5 9 37 42 (by decide)
  exact ⟨by decide, h.1, h.2.1 (by decide)⟩

/-- C1 (code bug): `stateC1` holds a mature conflict over cell 3 with
strengths 10 versus 7, a decisive gap.  As the source is written the update
aborts — the decisive branch calls `this.resolveTerritorialDispute`, a
method the class does not define (the defined method is spelled
`resolveTerrritorialDispute`), so the dynamic lookup raises a TypeError and
none of the claimed effects occur.  With the call bound to the defined
method, resolution produces exactly the claimed effects (`stateC1After`):
cell 3 cleared on the loser and set on the winner, a victory and a casualty
counted, winner reputation raised by 0.1 capped at 1.0, loser reputation
multiplied by 0.8, both conflict-flag bits cleared, and the PendingConflict
removed from the pending map. -/
theorem C1_resolution_effects :
    resolveConflictsAsWritten (fun _ _ => 0) stateC1 = none ∧
    resolveConflicts (fun _ _ => 0) stateC1 = some stateC1After := by
  have hA : calculateWarStrength (fun _ => (0 : Rat)) warfareA terrA = 10 := by
    norm_num [calculateWarStrength, allyLoop, allyLoopF, warfareA, terrA, List.sum_replicate]
  have hB : calculateWarStrength (fun _ => (0 : Rat)) warfareB terrA = 7 := by
    norm_num [calculateWarStrength, allyLoop, allyLoopF, warfareB, terrA, List.sum_replicate]
  have hcond : (MIN_STRENGTH < |calculateWarStrength (fun _ => (0 : Rat)) warfareA terrA -
      calculateWarStrength (fun _ => (0 : Rat)) warfareB terrA|) = True := by
    rw [hA, hB]
    refine eq_true ?_
    rw [show |(10 : Rat) - 7| = 3 by rw [abs_of_nonneg] <;> norm_num]
    norm_num [MIN_STRENGTH]
  have hwin : (calculateWarStrength (fun _ => (0 : Rat)) warfareB terrA <
      calculateWarStrength (fun _ => (0 : Rat)) warfareA terrA) = True := by
    rw [hA, hB]
    norm_num
  have hbit : (8 : Nat) &&& (4294967295 ^^^ 8) = 0 := by decide
  constructor
  · norm_num [resolveConflictsAsWritten, conflictFoldAsWritten, processConflictAsWritten,
      stateC1, conflictAB, lookupA]
  · norm_num [resolveConflicts, conflictFold, processConflict, stateC1, conflictAB, lookupA,
      hcond, hwin]
    norm_num [resolveTerrritorialDispute, updateA, updateWarReputation, clearBit32,
      warfareA, warfareB, terrA, hbit, min_def, stateC1After]

/-- C3: a mature conflict whose strength gap is at most the threshold
(equality included) resolves to a stalemate: the entry is kept with
`lastUpdate` refreshed to the current tick and its contested cell and
`startTime` preserved, so the PendingConflict remains in the map — and the
territory store, hence every slot bit of both parties, is untouched.  The
casualty cost both parties absorb is the spec-modelled `handleStalemate`. -/
theorem C3_stalemate_keeps_conflict (contrib : Nat → Nat → Rat) (s : TerrState)
    (gang1 gang2 : Nat) (c : ConflictRec) (w1 w2 : WarfareState)
    (t1 t2 : TerritoryControl)
    (hm : s.time - c.lastUpdate > 100)
    (h1 : lookupA gang1 s.warfare = some w1)
    (h2 : lookupA gang1 s.territory = some t1)
    (h3 : lookupA gang2 s.warfare = some w2)
    (h4 : lookupA gang2 s.territory = some t2)
    (hle : |calculateWarStrength (contrib gang1) w1 t1 -
        calculateWarStrength (contrib gang2) w2 t2| ≤ MIN_STRENGTH) :
    processConflict contrib s ((gang1, gang2), c) =
      some (handleStalemate s gang1 gang2,
        some ((gang1, gang2), { c with lastUpdate := s.time })) ∧
    (handleStalemate s gang1 gang2).territory = s.territory := by
  constructor
  · unfold processConflict
    simp only [hm, if_true, gt_iff_lt, h1, h2, h3, h4]
    rw [if_neg (not_lt.mpr hle)]
  · rfl

/-- C3 witness: the balanced conflict of `stateC3` (strengths 10 and 10)
stays pending with its clock refreshed to tick 101 and no slot bit moved. -/
theorem C3_stalemate_keeps_conflict_witness :
    (stateC3.time - conflictAB.lastUpdate > 100) ∧
    (|calculateWarStrength (fun _ => 0) warfareA terrA -
        calculateWarStrength (fun _ => 0) warfareA terrA| ≤ MIN_STRENGTH) ∧
    (processConflict (fun _ _ => 0) stateC3 ((1, 2), conflictAB) =
      some (handleStalemate stateC3 1 2,
        some ((1, 2), { conflictAB with lastUpdate := stateC3.time })) ∧
      (handleStalemate stateC3 1 2).territory = stateC3.territory) :=
  ⟨by decide,
    by rw [sub_self, abs_zero]; norm_num [MIN_STRENGTH],
    C3_stalemate_keeps_conflict (fun _ _ => 0) stateC3 1 2 conflictAB warfareA warfareA
      terrA terrA (by decide) (by decide) (by decide) (by decide) (by decide)
      (by rw [sub_self, abs_zero]; norm_num [MIN_STRENGTH])⟩

theorem allyLoopF_eq_sum (contrib : Nat → Rat) :
    ∀ (n mask idx : Nat), mask < 2 ^ n →
      allyLoopF contrib n mask idx =
        ∑ i in Finset.range n, if mask.testBit i then contrib (idx + i) else 0 := by
  intro n
  induction n with
  | zero =>
    intro mask idx hlt
    interval_cases mask
    simp [allyLoopF]
  | succ n ih =>
    intro mask idx hlt
    by_cases h0 : mask = 0
    · subst h0
      simp [allyLoopF, Nat.zero_testBit]
    · have hdiv : mask / 2 < 2 ^ n := by
        rw [Nat.div_lt_iff_lt_mul (by norm_num : (0 : Nat) < 2)]
        rw [pow_succ] at hlt
        exact hlt
      have hrec : allyLoopF contrib (n + 1) mask idx =
          (if mask % 2 = 1 then contrib idx else 0) +
            allyLoopF contrib n (mask / 2) (idx + 1) := by
        rw [allyLoopF]
        simp [h0]
      rw [hrec, ih (mask / 2) (idx + 1) hdiv]
      rw [Finset.sum_range_succ']
      have hbit0 : (if mask.testBit 0 then contrib (idx + 0) else 0) =
          (if mask % 2 = 1 then contrib idx else 0) := by
        rcases Nat.mod_two_eq_zero_or_one mask with hp | hp <;>
          simp [Nat.testBit_zero, hp]
      have hbits : ∀ i, (if mask.testBit (i + 1) then contrib (idx + (i + 1)) else 0) =
          (if (mask / 2).testBit i then contrib (idx + 1 + i) else 0) := by
        intro i
        have harg : idx + (i + 1) = idx + 1 + i := by omega
        rw [Nat.testBit_succ, harg]
      rw [hbit0]
      rw [Finset.sum_congr rfl fun i _ => hbits i]
      ring

/-- C2 amended: the strength the source computes at resolution time is
`(base capability + one-hop ally-contribution sum) * (1 + (sum of the
stability entries of all 16 cells) / 16) * (1 + reputation * 0.2)` — the
ally bonus is additive, not a multiplier, and the stability term averages
over all 16 grid cells, held or not, rather than over the held cells.  The
`ui32` mask bound keeps the source loop clear of the JavaScript signed-shift
divergence described at `allyLoopF`. -/
theorem C2_war_strength_formula (contrib : Nat → Rat) (warfare : WarfareState)
    (territory : TerritoryControl) (h : warfare.allies < 2 ^ 31) :
    calculateWarStrength contrib warfare territory =
      (warfare.warStrength +
          ∑ i in Finset.range 32, if warfare.allies.testBit i then contrib i else 0) *
        (1 + territory.stability.sum / 16) * (1 + warfare.reputation * (1 / 5)) := by
  unfold calculateWarStrength allyLoop
  rw [allyLoopF_eq_sum contrib 32 warfare.allies 0
    (lt_trans h (by norm_num : (2 : Nat) ^ 31 < 2 ^ 32))]
  simp [Nat.zero_add]

/-- C2 amended witness: base 2, allies on bits 0 and 2 with contribution
`i`, reputation 1, the stability layout of `terrS`. -/
theorem C2_war_strength_formula_witness :
    warfareW.allies < 2 ^ 31 ∧
    calculateWarStrength (fun i => (i : Rat)) warfareW terrS =
      (warfareW.warStrength +
          ∑ i in Finset.range 32, if warfareW.allies.testBit i then (i : Rat) else 0) *
        (1 + terrS.stability.sum / 16) * (1 + warfareW.reputation * (1 / 5)) :=
  ⟨by norm_num [warfareW], C2_war_strength_formula (fun i => (i : Rat)) warfareW terrS
    (by norm_num [warfareW])⟩

/-- C2 counterexample: with no allies, base 1, reputation 0, holding cell 0
only, and stability 4/5 sitting on the unheld cell 1 (`warfareS`, `terrS`),
the source computes `1 * (1 + (4/5)/16) * 1 = 21/20`, while the claimed
formula — base times (1 + ally sum) times (1 + average stability across the
held cells) times (1 + reputation k) — gives `1 * 1 * (1 + 0/1) * 1 = 1`. -/
theorem C2_counterexample :
    calculateWarStrength (fun _ => 0) warfareS terrS = 21 / 20 ∧
    specWarStrength (fun _ => 0) warfareS terrS = 1 ∧
    calculateWarStrength (fun _ => 0) warfareS terrS ≠
      specWarStrength (fun _ => 0) warfareS terrS := by
  have hc : calculateWarStrength (fun _ => 0) warfareS terrS = 21 / 20 := by
    norm_num [calculateWarStrength, allyLoop, allyLoopF, warfareS, terrS, List.sum_replicate]
  have hs : specWarStrength (fun _ => 0) warfareS terrS = 1 := by
    rw [specWarStrength]
    rw [show ((Finset.range 16).filter
        (fun i => Nat.testBit (terrS.territories) i = true)) = {0} by decide]
    norm_num [warfareS, terrS, Nat.zero_testBit]
  refine ⟨hc, hs, ?_⟩
  rw [hc, hs]
  norm_num

theorem lookupA_foldl_updateA {V : Type} (f : V → V) (agents : List Nat)
    (store : List (Nat × V)) (a : Nat) (hnd : agents.Nodup) :
    lookupA a (agents.foldl (fun st x => updateA x f st) store) =
      if a ∈ agents then (lookupA a store).map f else lookupA a store := by
  induction agents generalizing store with
  | nil => simp
  | cons x rest ih =>
    have hnd2 : rest.Nodup := hnd.of_cons
    have hx : x ∉ rest := (List.nodup_cons.mp hnd).1
    simp only [List.foldl_cons]
    rw [ih (updateA x f store) hnd2]
    by_cases hax : a = x
    · subst hax
      simp [hx, lookupA_updateA_self]
    · rw [lookupA_updateA_ne a x f store (Ne.symm hax)]
      simp [List.mem_cons, hax]

/-- C6 amended: when a destabilized ranked position has no viable candidate
(`findViableSuccessors` returns the empty list, as it does with zero
designated successors and zero viable claimants), `handlePowerVacuums` takes
the power-collapse branch — whatever the succession-crisis implementation is
— and every affected stakeholder comes out with rank `max 0 (rank - 1)`,
that is demoted by exactly 1 but clamped at 0, and with its stability factor
halved; agents outside the affected set are untouched.  The affected set is
the spec-modelled `findAffectedAgents`, every queried agent. -/
theorem C6_power_collapse
    (crisis : Vacuum → List Candidate → List (Nat × PowerStructure) →
      List (Nat × PowerStructure))
    (isV isC : Nat → PowerStructure → Vacuum → Bool) (support : Nat → Rat)
    (vacuum : Vacuum) (agents : List Nat) (store : List (Nat × PowerStructure))
    (hempty : findViableSuccessors isV isC support store vacuum agents = [])
    (hnd : agents.Nodup) (a : Nat) :
    lookupA a (handlePowerVacuums crisis isV isC support [vacuum] agents store) =
      if a ∈ agents then
        (lookupA a store).map fun p =>
          { p with
            leaderPosition := max 0 (p.leaderPosition - 1),
            stabilityFactor := p.stabilityFactor * (1 / 2) }
      else lookupA a store := by
  have hsort : sortVacuums [vacuum] = [vacuum] := rfl
  unfold handlePowerVacuums
  rw [hsort]
  simp only [List.foldl_cons, List.foldl_nil]
  rw [hempty]
  simp only [List.length_nil, gt_iff_lt, lt_irrefl, if_false]
  unfold handlePowerCollapse findAffectedAgents
  exact lookupA_foldl_updateA _ agents store a hnd

/-- C6 amended witness: the collapse scenario of `storeC6` applied to agent
1, whose rank drops from 3 to 2 with stability halved. -/
theorem C6_power_collapse_witness :
    findViableSuccessors (fun _ _ _ => false) (fun _ _ _ => false) (fun _ => 0)
        storeC6 vacC6 [1, 2] = [] ∧
    ([1, 2] : List Nat).Nodup ∧
    lookupA 1 (handlePowerVacuums (fun _ _ st => st) (fun _ _ _ => false)
        (fun _ _ _ => false) (fun _ => 0) [vacC6] [1, 2] storeC6) =
      (if (1 : Nat) ∈ [1, 2] then
        (lookupA 1 storeC6).map fun p =>
          { p with
            leaderPosition := max 0 (p.leaderPosition - 1),
            stabilityFactor := p.stabilityFactor * (1 / 2) }
      else lookupA 1 storeC6) :=
  ⟨by decide, by decide,
    C6_power_collapse (fun _ _ st => st) (fun _ _ _ => false) (fun _ _ _ => false)
      (fun _ => 0) vacC6 [1, 2] storeC6 (by decide) (by decide) 1⟩

/-- C6 counterexample: in the collapse over `storeC6`, the rank-0
stakeholder (agent 2) keeps rank 0 — the `Math.max(0, ...)` clamp — whereas
a demotion by exactly 1 would give rank `0 - 1 = -1`. -/
theorem C6_counterexample :
    (lookupA 2 (handlePowerVacuums (fun _ _ st => st) (fun _ _ _ => false)
        (fun _ _ _ => false) (fun _ => 0) [vacC6] [1, 2] storeC6)).map
        PowerStructure.leaderPosition = some 0 ∧
    (0 : Int) ≠ pc2.leaderPosition - 1 := by
  exact ⟨by decide, by decide⟩

theorem insertBySupport_perm (x : Candidate) (l : List Candidate) :
    List.Perm (insertBySupport x l) (x :: l) := by
  induction l with
  | nil => exact List.Perm.refl _
  | cons y ys ih =>
    by_cases h : x.support ≥ y.support
    · simp only [insertBySupport, if_pos h]
      exact List.Perm.refl _
    · simp only [insertBySupport, if_neg h]
      exact (List.Perm.cons y ih).trans (List.Perm.swap x y ys)

theorem sortBySupport_perm (l : List Candidate) :
    List.Perm (sortBySupport l) l := by
  induction l with
  | nil => exact List.Perm.refl _
  | cons x xs ih =>
    exact (insertBySupport_perm x (sortBySupport xs)).trans (List.Perm.cons x ih)

theorem insertBySupport_sorted (x : Candidate) (l : List Candidate)
    (h : List.Pairwise (fun c d => d.support ≤ c.support) l) :
    List.Pairwise (fun c d => d.support ≤ c.support) (insertBySupport x l) := by
  induction l with
  | nil => simp [insertBySupport]
  | cons y ys ih =>
    rcases List.pairwise_cons.mp h with ⟨hy, hys⟩
    by_cases hxy : x.support ≥ y.support
    · simp only [insertBySupport, if_pos hxy]
      refine List.pairwise_cons.mpr ⟨?_, h⟩
      intro z hz
      rcases List.mem_cons.mp hz with rfl | hz2
      · exact hxy
      · exact le_trans (hy z hz2) hxy
    · simp only [insertBySupport, if_neg hxy]
      refine List.pairwise_cons.mpr ⟨?_, ih hys⟩
      intro z hz
      rcases List.mem_cons.mp ((insertBySupport_perm x ys).mem_iff.mp hz) with rfl | hz2
      · exact le_of_lt (lt_of_not_ge hxy)
      · exact hy z hz2

theorem sortBySupport_sorted (l : List Candidate) :
    List.Pairwise (fun c d => d.support ≤ c.support) (sortBySupport l) := by
  induction l with
  | nil => simp [sortBySupport]
  | cons x xs ih => exact insertBySupport_sorted x (sortBySupport xs) ih

theorem filter_insertBySupport (x : Candidate) (l : List Candidate) (v : Rat) :
    (insertBySupport x l).filter (fun c => decide (c.support = v)) =
      if x.support = v then
        x :: l.filter (fun c => decide (c.support = v))
      else l.filter (fun c => decide (c.support = v)) := by
  induction l with
  | nil =>
    by_cases hv : x.support = v <;> simp [insertBySupport, List.filter, hv]
  | cons y ys ih =>
    by_cases hxy : x.support ≥ y.support
    · simp only [insertBySupport, if_pos hxy]
      by_cases hv : x.support = v <;> simp [List.filter_cons, hv]
    · simp only [insertBySupport, if_neg hxy]
      rw [List.filter_cons, ih]
      by_cases hv : x.support = v
      · have hyv : y.support ≠ v := by
          rw [← hv]
          exact ne_of_gt (lt_of_not_ge hxy)
        simp [List.filter_cons, hv, hyv]
      · simp only [hv, if_false]
        rw [List.filter_cons]

theorem filter_sortBySupport (l : List Candidate) (v : Rat) :
    (sortBySupport l).filter (fun c => decide (c.support = v)) =
      l.filter (fun c => decide (c.support = v)) := by
  induction l with
  | nil => rfl
  | cons x xs ih =>
    rw [show sortBySupport (x :: xs) = insertBySupport x (sortBySupport xs) from rfl]
    rw [filter_insertBySupport, ih, List.filter_cons]
    by_cases hv : x.support = v <;> simp [hv]

/-- C7 amended: the candidate list `findViableSuccessors` returns is a
permutation of the enumeration (designated successors in list order first,
then other queried stakeholders), sorted by descending support; and for
every support value the candidates carrying it appear in their enumeration
order — the JavaScript sort is stable — rather than ordered by lowest entity
id. -/
theorem C7_stable_descending_sort (isV isC : Nat → PowerStructure → Vacuum → Bool)
    (support : Nat → Rat) (store : List (Nat × PowerStructure)) (vacuum : Vacuum)
    (agents : List Nat) :
    List.Perm (findViableSuccessors isV isC support store vacuum agents)
      (enumerateCandidates isV isC support store vacuum agents) ∧
    List.Pairwise (fun c d => d.support ≤ c.support)
      (findViableSuccessors isV isC support store vacuum agents) ∧
    ∀ v : Rat,
      (findViableSuccessors isV isC support store vacuum agents).filter
          (fun c => decide (c.support = v)) =
        (enumerateCandidates isV isC support store vacuum agents).filter
          (fun c => decide (c.support = v)) :=
  ⟨sortBySupport_perm _, sortBySupport_sorted _, fun v => filter_sortBySupport _ v⟩

/-- C7 counterexample: in `storeC7` the designated successors 7 and 3 (list
order) are both viable with equal support 1.  The source returns them in
enumeration order, agent 7 first; the claimed lowest-entity-id tie-break
(`specCandidateOrder`) would put agent 3 first, so the produced list is not
the claimed one. -/
theorem C7_counterexample :
    candC7.map Candidate.agent = [7, 3] ∧
    (specCandidateOrder candC7).map Candidate.agent = [3, 7] ∧
    candC7 ≠ specCandidateOrder candC7 := by
  exact ⟨by decide, by decide, by decide⟩

theorem registerConflict_territory (s : TerrState) (gang1 gang2 territoryId : Nat) :
    (registerConflict s gang1 gang2 territoryId).territory = s.territory := by
  by_cases h : hasKeyA (min gang1 gang2, max gang1 gang2) s.conflictCache = true
  · rw [registerConflict_of_hasKey s gang1 gang2 territoryId h]
  · unfold registerConflict
    simp [h]

theorem terrOf_congr (s s0 : TerrState) (g : Nat) (h : s.territory = s0.territory) :
    terrOf s g = terrOf s0 g := by
  unfold terrOf
  rw [h]

theorem firstClaimant_append (s0 : TerrState) (pre : List Nat) (g : Nat) (j : Nat) :
    firstClaimant s0 (pre ++ [g]) j =
      match firstClaimant s0 pre j with
      | some x => some x
      | none => if (terrOf s0 g).testBit j then some g else none := by
  unfold firstClaimant
  induction pre with
  | nil =>
    simp [List.find?]
    by_cases hb : (terrOf s0 g).testBit j <;> simp [hb]
  | cons a pre ih =>
    simp only [List.cons_append, List.find?]
    cases hb : (terrOf s0 a).testBit j with
    | true => simp
    | false => simpa using ih

theorem mem_of_firstClaimant (s0 : TerrState) (l : List Nat) (i : Nat) (occ : Nat)
    (h : firstClaimant s0 l i = some occ) : occ ∈ l :=
  List.mem_of_find?_eq_some h

theorem filterMapA_congr {A B : Type} (f g : A → Option B) (l : List A)
    (h : ∀ a ∈ l, f a = g a) : l.filterMap f = l.filterMap g := by
  induction l with
  | nil => rfl
  | cons a l ih =>
    rw [List.filterMap_cons, List.filterMap_cons, h a (List.mem_cons_self a l),
      ih fun b hb => h b (List.mem_cons_of_mem a hb)]

theorem claimSlots_spec (gangster terr : Nat) (slots : List Nat) :
    slots.Nodup →
    ∀ (s : TerrState) (grid : Nat → Option Nat) (log : List (Nat × Nat × Nat)),
      (claimSlots gangster terr slots (s, grid, log)).1.territory = s.territory ∧
      (∀ j, (claimSlots gangster terr slots (s, grid, log)).2.1 j =
        if j ∈ slots ∧ terr.testBit j ∧ grid j = none then some gangster else grid j) ∧
      (claimSlots gangster terr slots (s, grid, log)).2.2 =
        log ++ slots.filterMap (fun i =>
          if terr.testBit i then
            match grid i with
            | some occ => some (gangster, occ, i)
            | none => none
          else none) := by
  induction slots with
  | nil =>
    intro _ s grid log
    refine ⟨rfl, ?_, by simp [claimSlots]⟩
    intro j
    simp [claimSlots]
  | cons i rest ih =>
    intro hnd s grid log
    have hi : i ∉ rest := (List.nodup_cons.mp hnd).1
    have ihr := ih (List.nodup_cons.mp hnd).2
    by_cases hbit : terr.testBit i
    · cases hgrid : grid i with
      | some occ =>
        have hstep : claimSlots gangster terr (i :: rest) (s, grid, log) =
            claimSlots gangster terr rest
              (registerConflict s gangster occ i, grid, log ++ [(gangster, occ, i)]) := by
          simp [claimSlots, hbit, hgrid]
        obtain ⟨ih1, ih2, ih3⟩ :=
          ihr (registerConflict s gangster occ i) grid (log ++ [(gangster, occ, i)])
        refine ⟨?_, ?_, ?_⟩
        · rw [hstep, ih1, registerConflict_territory]
        · intro j
          rw [hstep, ih2 j]
          by_cases hji : j = i
          · subst hji
            simp [hgrid, hi]
          · simp [List.mem_cons, hji]
        · rw [hstep, ih3, List.filterMap_cons]
          simp [hbit, hgrid]
      | none =>
        have hstep : claimSlots gangster terr (i :: rest) (s, grid, log) =
            claimSlots gangster terr rest
              (s, fun j => if j = i then some gangster else grid j, log) := by
          simp [claimSlots, hbit, hgrid]
        obtain ⟨ih1, ih2, ih3⟩ :=
          ihr s (fun j => if j = i then some gangster else grid j) log
        refine ⟨?_, ?_, ?_⟩
        · rw [hstep, ih1]
        · intro j
          rw [hstep, ih2 j]
          by_cases hji : j = i
          · subst hji
            simp [hi, hgrid, hbit]
          · simp [List.mem_cons, hji]
        · rw [hstep, ih3, List.filterMap_cons]
          have hcong : (rest.filterMap fun k =>
              if terr.testBit k then
                match (if k = i then some gangster else grid k) with
                | some occ => some (gangster, occ, k)
                | none => none
              else none) =
              rest.filterMap fun k =>
                if terr.testBit k then
                  match grid k with
                  | some occ => some (gangster, occ, k)
                  | none => none
                else none := by
            refine filterMapA_congr _ _ rest fun k hk => ?_
            have hki : k ≠ i := fun he => hi (he ▸ hk)
            simp [hki]
          rw [hcong]
          simp [hbit, hgrid]
    · have hstep : claimSlots gangster terr (i :: rest) (s, grid, log) =
          claimSlots gangster terr rest (s, grid, log) := by
        simp [claimSlots, hbit]
      obtain ⟨ih1, ih2, ih3⟩ := ihr s grid log
      refine ⟨?_, ?_, ?_⟩
      · rw [hstep, ih1]
      · intro j
        rw [hstep, ih2 j]
        by_cases hji : j = i
        · subst hji
          simp [hbit]
        · simp [List.mem_cons, hji]
      · rw [hstep, ih3, List.filterMap_cons]
        simp [hbit]

theorem gangstersLoop_spec (s0 : TerrState) (gs : List Nat) :
    ∀ (pre : List Nat), (pre ++ gs).Nodup →
    ∀ (s : TerrState) (grid : Nat → Option Nat) (log : List (Nat × Nat × Nat)),
    s.territory = s0.territory →
    (∀ j, grid j = if j < 16 then firstClaimant s0 pre j else none) →
    (∀ p ∈ log, firstClaimant s0 pre p.2.2 = some p.2.1 ∧ p.1 ∈ pre ∧ p.1 ≠ p.2.1 ∧
        (terrOf s0 p.1).testBit p.2.2 = true ∧ p.2.2 < 16) →
    (∀ g ∈ pre, ∀ i, i < 16 → (terrOf s0 g).testBit i = true →
        firstClaimant s0 pre i ≠ some g →
        ∃ occ, firstClaimant s0 pre i = some occ ∧ (g, occ, i) ∈ log) →
    ((gangstersLoop gs (s, grid, log)).1.territory = s0.territory ∧
      (∀ j, (gangstersLoop gs (s, grid, log)).2.1 j =
        if j < 16 then firstClaimant s0 (pre ++ gs) j else none) ∧
      (∀ p ∈ (gangstersLoop gs (s, grid, log)).2.2,
        firstClaimant s0 (pre ++ gs) p.2.2 = some p.2.1 ∧ p.1 ∈ pre ++ gs ∧
          p.1 ≠ p.2.1 ∧ (terrOf s0 p.1).testBit p.2.2 = true ∧ p.2.2 < 16) ∧
      (∀ g ∈ pre ++ gs, ∀ i, i < 16 → (terrOf s0 g).testBit i = true →
        firstClaimant s0 (pre ++ gs) i ≠ some g →
        ∃ occ, firstClaimant s0 (pre ++ gs) i = some occ ∧
          (g, occ, i) ∈ (gangstersLoop gs (s, grid, log)).2.2)) := by
  induction gs with
  | nil =>
    intro pre hnd s grid log hterr hgrid hlog hcomp
    simp only [gangstersLoop, List.append_nil]
    exact ⟨hterr, hgrid, hlog, hcomp⟩
  | cons g rest ih =>
    intro pre hnd s grid log hterr hgrid hlog hcomp
    have hterrg : terrOf s g = terrOf s0 g := terrOf_congr s s0 g hterr
    have hgnotpre : g ∉ pre := fun hg =>
      ((List.nodup_append.mp hnd).2.2 hg) (List.mem_cons_self g rest)
    have hnd2 : ((pre ++ [g]) ++ rest).Nodup := by
      rw [List.append_assoc]
      simpa using hnd
    rw [show gangstersLoop (g :: rest) (s, grid, log) =
        gangstersLoop rest (claimSlots g (terrOf s g) (List.range TERRITORY_GRID)
          (s, grid, log)) from rfl]
    obtain ⟨c1, c2, c3⟩ := claimSlots_spec g (terrOf s g) (List.range TERRITORY_GRID)
      (List.nodup_range TERRITORY_GRID) s grid log
    set t := claimSlots g (terrOf s g) (List.range TERRITORY_GRID) (s, grid, log) with ht
    have H1 : t.1.territory = s0.territory := by rw [c1, hterr]
    have H2 : ∀ j, t.2.1 j = if j < 16 then firstClaimant s0 (pre ++ [g]) j else none := by
      intro j
      rw [c2 j, hterrg]
      by_cases hj : j < 16
      · have hjr : j ∈ List.range TERRITORY_GRID :=
          List.mem_range.mpr (by simpa [TERRITORY_GRID] using hj)
        rw [firstClaimant_append]
        cases hfc : firstClaimant s0 pre j with
        | some x =>
          have hgx : grid j = some x := by rw [hgrid j, if_pos hj, hfc]
          simp [hgx, hj]
        | none =>
          have hgj : grid j = none := by rw [hgrid j, if_pos hj, hfc]
          by_cases hb : (terrOf s0 g).testBit j <;> simp [hjr, hb, hgj, hj]
      · have hjr : j ∉ List.range TERRITORY_GRID := by
          simp only [List.mem_range, TERRITORY_GRID]
          omega
        have hgj : grid j = none := by rw [hgrid j, if_neg hj]
        simp [hjr, hgj, hj]
    have H3 : ∀ p ∈ t.2.2, firstClaimant s0 (pre ++ [g]) p.2.2 = some p.2.1 ∧
        p.1 ∈ pre ++ [g] ∧ p.1 ≠ p.2.1 ∧
        (terrOf s0 p.1).testBit p.2.2 = true ∧ p.2.2 < 16 := by
      intro p hp
      rw [c3] at hp
      rcases List.mem_append.mp hp with hold | hnew
      · obtain ⟨h1, h2, h3, h4, h5⟩ := hlog p hold
        refine ⟨?_, List.mem_append_left _ h2, h3, h4, h5⟩
        rw [firstClaimant_append]
        simp [h1]
      · obtain ⟨i, hir, hFi⟩ := List.mem_filterMap.mp hnew
        by_cases hb : (terrOf s g).testBit i
        · rw [if_pos hb] at hFi
          cases hgi : grid i with
          | none =>
            rw [hgi] at hFi
            exact absurd hFi (by simp)
          | some occ =>
            rw [hgi] at hFi
            have hpeq : p = (g, occ, i) := by
              have := hFi
              simpa using this.symm
            subst hpeq
            have hi16 : i < 16 := by simpa [TERRITORY_GRID] using List.mem_range.mp hir
            have hfc : firstClaimant s0 pre i = some occ := by
              have h := hgrid i
              rw [hgi, if_pos hi16] at h
              exact h.symm
            have hoccpre : occ ∈ pre := mem_of_firstClaimant s0 pre i occ hfc
            refine ⟨?_, ?_, ?_, ?_, hi16⟩
            · rw [firstClaimant_append]
              simp [hfc]
            · exact List.mem_append_right _ (by simp)
            · intro he
              apply hgnotpre
              rw [show g = occ from he]
              exact hoccpre
            · rw [← hterrg]
              exact hb
        · rw [if_neg hb] at hFi
          exact absurd hFi (by simp)
    have H4 : ∀ g2 ∈ pre ++ [g], ∀ i, i < 16 → (terrOf s0 g2).testBit i = true →
        firstClaimant s0 (pre ++ [g]) i ≠ some g2 →
        ∃ occ, firstClaimant s0 (pre ++ [g]) i = some occ ∧ (g2, occ, i) ∈ t.2.2 := by
      intro g2 hg2 i hi16 hbit2 hne
      rcases List.mem_append.mp hg2 with hg2pre | hg2g
      · have hnepre : firstClaimant s0 pre i ≠ some g2 := by
          intro he
          apply hne
          rw [firstClaimant_append]
          simp [he]
        obtain ⟨occ, hocc, hmem⟩ := hcomp g2 hg2pre i hi16 hbit2 hnepre
        refine ⟨occ, ?_, ?_⟩
        · rw [firstClaimant_append]
          simp [hocc]
        · rw [c3]
          exact List.mem_append_left _ hmem
      · have hg2eq : g2 = g := by simpa using hg2g
        subst hg2eq
        cases hfc : firstClaimant s0 pre i with
        | none =>
          exfalso
          apply hne
          rw [firstClaimant_append]
          simp [hfc, hbit2]
        | some occ =>
          have hgi : grid i = some occ := by rw [hgrid i, if_pos hi16, hfc]
          refine ⟨occ, ?_, ?_⟩
          · rw [firstClaimant_append]
            simp [hfc]
          · rw [c3]
            refine List.mem_append_right _ (List.mem_filterMap.mpr ⟨i, ?_, ?_⟩)
            · exact List.mem_range.mpr (by simpa [TERRITORY_GRID] using hi16)
            · rw [if_pos (by rw [hterrg]; exact hbit2), hgi]
    have main := ih (pre ++ [g]) hnd2 t.1 t.2.1 t.2.2 H1 H2 H3 H4
    rw [show (pre ++ [g]) ++ rest = pre ++ g :: rest by simp] at main
    exact main

/-- C10: when several queried gangsters claim the same cell in one tick, the
recorded occupant of that cell is the first claimant in query order, and it
stays the occupant whatever later claims arrive; every `registerConflict`
call for a cell pairs a later claimant with that first claimant (so no
conflict is ever registered between two later claimants); and every later
claimant of the cell does get a `registerConflict` call against the first
claimant.  The call log is the ghost instrumentation of
`updateTerritoriesAux`. -/
theorem C10_first_claimant (s : TerrState) (gs : List Nat) (hnd : gs.Nodup) :
    (∀ i, i < 16 → (updateTerritoriesAux s gs).2.1 i = firstClaimant s gs i) ∧
    (∀ p ∈ (updateTerritoriesAux s gs).2.2,
      firstClaimant s gs p.2.2 = some p.2.1 ∧ p.1 ≠ p.2.1 ∧
        (terrOf s p.1).testBit p.2.2 = true) ∧
    (∀ g ∈ gs, ∀ i, i < 16 → (terrOf s g).testBit i = true →
      firstClaimant s gs i ≠ some g →
      ∃ occ, firstClaimant s gs i = some occ ∧
        (g, occ, i) ∈ (updateTerritoriesAux s gs).2.2) := by
  obtain ⟨m1, m2, m3, m4⟩ := gangstersLoop_spec s gs [] (by simpa using hnd) s
    (fun _ => none) [] rfl
    (by
      intro j
      simp [firstClaimant, List.find?])
    (by
      intro p hp
      simp at hp)
    (by
      intro g hg
      simp at hg)
  simp only [List.nil_append] at m2 m3 m4
  unfold updateTerritoriesAux
  refine ⟨?_, ?_, ?_⟩
  · intro i hi
    rw [m2 i, if_pos hi]
  · intro p hp
    obtain ⟨h1, _, h3, h4, _⟩ := m3 p hp
    exact ⟨h1, h3, h4⟩
  · intro g hg i hi hbit hne
    exact m4 g hg i hi hbit hne

/-- C10 witness: gangsters 1, 2 and 3 all claim cell 3; the grid keeps the
first claimant 1, and the call log pairs each of 2 and 3 against 1 on cell 3
and contains nothing else — in particular no (2, 3) or (3, 2) conflict. -/
theorem C10_first_claimant_witness :
    ([1, 2, 3] : List Nat).Nodup ∧
    (updateTerritoriesAux stateC10 [1, 2, 3]).2.1 3 = firstClaimant stateC10 [1, 2, 3] 3 ∧
    (updateTerritoriesAux stateC10 [1, 2, 3]).2.1 3 = some 1 ∧
    (updateTerritoriesAux stateC10 [1, 2, 3]).2.2 = [(2, 1, 3), (3, 1, 3)] := by
  refine ⟨by decide, ?_, by decide, by decide⟩
  exact (C10_first_claimant stateC10 [1, 2, 3] (by decide)).1 3 (by decide)

end Gangland
